import Mathlib

/-!
Shallow embedding of the WoW community API client (src/index.js).

JavaScript runtime values that the client inspects are modelled by the
inductive type `JsVal`; JS objects are insertion-ordered association lists
from string keys to values, matching the enumeration order that
`Object.assign` and `qs.stringify` observe.  `Object.assign target src`
mutates `target` in place (existing keys are updated in position, new keys
are appended); `objAssign` reproduces exactly that result, and the client
state after a call carries the merged list, since line 38 of the source
passes `this.queryOptions` itself as the assign target.
-/

namespace WowCommunity

/-- Model of a JavaScript value as far as the client inspects one. -/
inductive JsVal where
  | undefV
  | nullV
  | boolV (b : Bool)
  | num (n : Int)
  | str (s : String)
  | arr (elems : List JsVal)
  | obj (fields : List (String × JsVal))
deriving Repr

/-- JavaScript truthiness for the values modelled by `JsVal`. -/
def truthy : JsVal → Bool
  | .undefV => false
  | .nullV => false
  | .boolV b => b
  | .num n => n != 0
  | .str s => s != ""
  | .arr _ => true
  | .obj _ => true

/-- First value bound to key `k` in an association list (JS objects hold each
key at most once, so first and only). -/
def lookup {α : Type} (o : List (String × α)) (k : String) : Option α :=
  (o.find? (fun p => p.1 = k)).map (fun p => p.2)

/-- Property read `v[k]`.  Objects give the bound value or `undefined`;
`length` reads on arrays and strings give the element count, matching JS;
every other read gives `undefined`. -/
def getField : JsVal → String → JsVal
  | .obj fs, k => (lookup fs k).getD .undefV
  | .arr l, k => if k = "length" then .num (Int.ofNat l.length) else .undefV
  | .str s, k => if k = "length" then .num (Int.ofNat s.length) else .undefV
  | _, _ => .undefV

/-- Index read `v[i]` on an array value; `undefined` elsewhere. -/
def indexAt : JsVal → Nat → JsVal
  | .arr l, i => (l.get? i).getD .undefV
  | _, _ => .undefV

/-- One key update of `Object.assign`: an existing key keeps its position and
takes the new value, a fresh key is appended (JS objects hold one slot per
key). -/
def setKey {α : Type} : List (String × α) → String → α → List (String × α)
  | [], k, v => [(k, v)]
  | p :: o, k, v => if p.1 = k then (k, v) :: o else p :: setKey o k v

/-- Result of `Object.assign(target, src)`: the keys of `src` folded onto
`target` left to right. -/
def objAssign {α : Type} (target src : List (String × α)) : List (String × α) :=
  src.foldl (fun acc p => setKey acc p.1 p.2) target

/-- Last value bound to key `k` in `src` (the binding `Object.assign` keeps
when `src` repeats a key; for the unique-key lists JS objects produce it is
the binding of `k`). -/
def lastVal {α : Type} : List (String × α) → String → Option α
  | [], _ => none
  | p :: src, k =>
    match lastVal src k with
    | some v => some v
    | none => if p.1 = k then some p.2 else none

/-! ### Query-string serialisation (`qs.stringify`) -/

/-- Characters Node's querystring escape leaves as-is. -/
def qsSafeChar (c : Char) : Bool :=
  c.isAlphanum || c = '-' || c = '_' || c = '.' || c = '!' || c = '~' || c = '*' || c = '(' || c = ')'

/-- Upper-case hexadecimal digit of a value below 16. -/
def hexDigit (n : Nat) : Char :=
  if n < 10 then Char.ofNat (48 + n) else Char.ofNat (55 + n)

/-- UTF-8 bytes of one character, for percent-encoding. -/
def utf8Bytes (c : Char) : List Nat :=
  let n := c.toNat
  if n < 128 then [n]
  else if n < 2048 then [192 + n / 64, 128 + n % 64]
  else if n < 65536 then [224 + n / 4096, 128 + (n / 64) % 64, 128 + n % 64]
  else [240 + n / 262144, 128 + (n / 4096) % 64, 128 + (n / 64) % 64, 128 + n % 64]

/-- Percent-encode one character unless it is in the safe set. -/
def escapeChar (c : Char) : String :=
  if qsSafeChar c then String.singleton c
  else String.join ((utf8Bytes c).map (fun b =>
    String.singleton '%' ++ String.singleton (hexDigit (b / 16)) ++ String.singleton (hexDigit (b % 16))))

/-- Percent-encoding of a whole string. -/
def qsEscape (s : String) : String :=
  String.join (s.toList.map escapeChar)

/-- Serialisation of an ordered key-value list as a query string, the way
`qs.stringify` renders the merged parameter object. -/
def stringifyPairs (l : List (String × String)) : String :=
  String.intercalate "&" (l.map (fun p => qsEscape p.1 ++ "=" ++ qsEscape p.2))

/-! ### Construction (src/index.js lines 13-29) -/

/-- Constructor argument object: each field may be absent (`undefined`). -/
structure ClientConfig where
  apiKey : Option String
  locale : Option String
  region : Option String
deriving Repr

/-- Truthiness of an optional string argument: absent and empty are falsy. -/
def optTruthy : Option String → Bool
  | none => false
  | some s => s != ""

/-- The test of the anchored region regex on a candidate string. -/
def regionRegexTest (s : String) : Bool :=
  s = "us" || s = "eu"

/-- Embeds the locale guard on line 22: the code negates the regex literal
itself instead of testing the locale against it, and a regex object is always
truthy, so the negation is `false` for every input. -/
def localeRegexLiteralNegated : Bool := false

/-- Client state: the derived host and the default query parameters.  The
source also stores fixed fetch options (a 5000 ms timeout), which carry no
logic used by the claims. -/
structure Client where
  apiHost : String
  queryOptions : List (String × String)
deriving Repr

/-- The constructor (lines 13-29): throws on a falsy API key, on a truthy
region failing the region regex, and on a truthy locale when the (dead)
locale guard fires; otherwise derives the host and default query options. -/
def construct (cfg : ClientConfig) : Except String Client :=
  if !optTruthy cfg.apiKey then
    .error "API key not provided"
  else if optTruthy cfg.region && !regionRegexTest (cfg.region.getD "") then
    .error "Region must be eu or us"
  else if optTruthy cfg.locale && localeRegexLiteralNegated then
    .error "Locale must be en_US, es_MX, or pt_BR"
  else
    .ok { apiHost := "https://" ++ (if optTruthy cfg.region then cfg.region.getD "" else "us") ++ ".api.battle.net/wow"
          queryOptions := [("apikey", cfg.apiKey.getD ""),
                           ("locale", if optTruthy cfg.locale then cfg.locale.getD "" else "en_US")] }

/-! ### Request execution (src/index.js lines 37-53) -/

/-- Outcome of building one request (line 38): the outgoing URL, plus the
client state afterwards.  `Object.assign(this.queryOptions, params)` mutates
the stored options, so the post-call state carries the merged list. -/
structure QueryCall where
  url : String
  client : Client
deriving Repr

/-- URL construction and option merge of `query` (line 38). -/
def query (c : Client) (path : String) (params : List (String × String)) : QueryCall :=
  let merged := objAssign c.queryOptions params
  { url := c.apiHost ++ "/" ++ path ++ "?" ++ stringifyPairs merged
    client := { c with queryOptions := merged } }

/-- The rejection value `new APIError(status, reason)`. -/
structure APIError where
  code : Nat
  reason : JsVal
deriving Repr

/-- The test of the status regex (line 47) on the decimal rendering of the
status: the string must be a 2 followed by exactly two digits. -/
def regexTest2xx (s : String) : Bool :=
  match s.toList with
  | ['2', a, b] => a.isDigit && b.isDigit
  | _ => false

/-- Settlement of `query` (lines 46-48): resolve with the parsed body when
the status string matches the 2xx regex, otherwise reject with an APIError
carrying the status and the body reason field. -/
def querySettle (status : Nat) (body : JsVal) : Except APIError JsVal :=
  if regexTest2xx (Nat.repr status) then .ok body
  else .error ⟨status, getField body "reason"⟩

/-! ### Chained auction fetch (src/index.js lines 74-104) -/

/-- Enumerable own fields of a value, as `Object.assign` copies them from a
source argument; the bodies merged by the auction chain are plain objects. -/
def fieldsOf : JsVal → List (String × JsVal)
  | .obj fs => fs
  | _ => []

/-- The guard on line 80: `body.files && body.files.length && body.files[0].url`. -/
def auctionPrecheck (body : JsVal) : Bool :=
  truthy (getField body "files") &&
  truthy (getField (getField body "files") "length") &&
  truthy (getField (indexAt (getField body "files") 0) "url")

/-- The resolved value on lines 92-95:
`Object.assign({ lastModified: this.lastModified }, body)` — the injected
timestamp is the assign TARGET, so fields of the step-2 body are merged over
it. -/
def auctionMerge (lastModified : JsVal) (body2 : JsVal) : JsVal :=
  .obj (objAssign [("lastModified", lastModified)] (fieldsOf body2))

/-- Observable outcome of one `auction` call: how the promise settles,
whether the second fetch was issued, and against which URL. -/
structure AuctionOutcome where
  result : Except APIError JsVal
  secondFetchIssued : Bool
  secondFetchUrl : Option JsVal
deriving Repr

/-- The auction chain (lines 74-104), expressed over the two network
responses it consumes: `step1` is how the first `query` call settled, and
`status2`/`body2` the raw response of the second fetch, consulted only when
that fetch is issued.  A step-1 rejection propagates with no second fetch; a
failed guard rejects with the synthetic 500; otherwise the second response is
classified by the same status regex, and on success the step-1 timestamp is
merged under the step-2 body. -/
def auction (step1 : Except APIError JsVal) (status2 : Nat) (body2 : JsVal) : AuctionOutcome :=
  match step1 with
  | .error e => { result := .error e, secondFetchIssued := false, secondFetchUrl := none }
  | .ok body =>
    if auctionPrecheck body then
      let lastModified := getField (indexAt (getField body "files") 0) "lastModified"
      { result :=
          if regexTest2xx (Nat.repr status2) then
            .ok (auctionMerge lastModified body2)
          else
            .error ⟨status2, getField body2 "reason"⟩
        secondFetchIssued := true
        secondFetchUrl := some (getField (indexAt (getField body "files") 0) "url") }
    else
      { result := .error ⟨500, .str "Malformed auction response"⟩
        secondFetchIssued := false
        secondFetchUrl := none }

/-! ### realm endpoint (src/index.js lines 254-258) -/

/-- The realms argument of `realm`: null (the default), a single string, or
an array of strings. -/
inductive RealmsArg where
  | nullArg
  | strArg (s : String)
  | arrArg (elems : List String)
deriving Repr

/-- JS truthiness of the realms argument. -/
def realmsTruthy : RealmsArg → Bool
  | .nullArg => false
  | .strArg s => s != ""
  | .arrArg _ => true

/-- Embeds `realms.constructor === 'string'` on line 256: the constructor of
a string value is the `String` function object, which is never strictly equal
to the string literal, so the comparison is `false` for every value. -/
def ctorEqStringLiteral : RealmsArg → Bool := fun _ => false

/-- Embeds `realms.constructor === Array` on line 256. -/
def ctorEqArray : RealmsArg → Bool
  | .arrArg _ => true
  | _ => false

/-- The first `Object.assign` argument built on line 256: the realms filter
object derived from the realms argument. -/
def realmFilter : RealmsArg → List (String × String)
  | r =>
    if realmsTruthy r && ctorEqStringLiteral r then
      match r with
      | .strArg s => [("realms", s)]
      | _ => []
    else if realmsTruthy r && ctorEqArray r then
      match r with
      | .arrArg l => [("realms", String.intercalate "," l)]
      | _ => []
    else []

/-- The `realm` endpoint (lines 254-258). -/
def realm (c : Client) (realms : RealmsArg) (queryParams : List (String × String)) : QueryCall :=
  query c "realm/status" (objAssign (realmFilter realms) queryParams)

/-! ### data endpoint (src/index.js lines 300-327) -/

/-- The switch on lines 302-325 mapping a resource token to a sub-path; the
default branch yields the empty string. -/
def dataSubPath : String → String
  | "talents" => "talents"
  | "battlegroups" => "battlegroups/"
  | "races" => "character/races"
  | "classes" => "character/classes"
  | "achievements" => "character/achievements"
  | "rewards" => "guild/rewards"
  | "perks" => "guild/perks"
  | "guildAchievements" => "guild/achievements"
  | "itemClasses" => "item/classes"
  | "petTypes" => "pet/types"
  | _ => ""

/-- The `data` endpoint (lines 300-327). -/
def data (c : Client) (resource : String) (queryParams : List (String × String)) : QueryCall :=
  query c ("data/" ++ dataSubPath resource) queryParams

/-! ### Helper lemmas about the association-list operations -/

theorem lookup_nil {α : Type} (q : String) : lookup ([] : List (String × α)) q = none := rfl

theorem lookup_cons {α : Type} (p : String × α) (l : List (String × α)) (q : String) :
    lookup (p :: l) q = if p.1 = q then some p.2 else lookup l q := by
  by_cases h : p.1 = q
  · simp [lookup, List.find?_cons_of_pos, h]
  · simp [lookup, List.find?_cons_of_neg, h]

theorem lookup_setKey {α : Type} (o : List (String × α)) (k q : String) (v : α) :
    lookup (setKey o k v) q = if q = k then some v else lookup o q := by
  induction o with
  | nil =>
    by_cases h : q = k
    · simp [setKey, lookup_cons, lookup_nil, h]
    · simp [setKey, lookup_cons, lookup_nil, h, Ne.symm h]
  | cons p o ih =>
    by_cases hpk : p.1 = k
    · rw [show setKey (p :: o) k v = (k, v) :: o from by simp [setKey, hpk]]
      by_cases hq : q = k
      · simp [lookup_cons, hq]
      · have hpq : ¬p.1 = q := fun h => hq (h.symm.trans hpk)
        simp [lookup_cons, hq, Ne.symm hq, hpq]
    · rw [show setKey (p :: o) k v = p :: setKey o k v from by simp [setKey, hpk]]
      by_cases hpq : p.1 = q
      · have : ¬q = k := fun h => hpk (hpq.trans h)
        simp [lookup_cons, hpq, this]
      · simp [lookup_cons, hpq, ih]

theorem lookup_objAssign {α : Type} (base src : List (String × α)) (k : String) :
    lookup (objAssign base src) k = (lastVal src k).elim (lookup base k) some := by
  induction src generalizing base with
  | nil => rfl
  | cons p src ih =>
    rw [show objAssign base (p :: src) = objAssign (setKey base p.1 p.2) src from rfl, ih]
    cases h : lastVal src k with
    | some v => simp [lastVal, h]
    | none =>
      rw [lookup_setKey]
      by_cases hk : p.1 = k
      · simp [lastVal, h, hk]
      · have hk2 : ¬k = p.1 := fun hq => hk hq.symm
        simp [lastVal, h, hk, hk2]

/-- Inversion for a successful construction: the default query options the
constructor stores. -/
theorem construct_ok_queryOptions (cfg : ClientConfig) (c : Client)
    (hc : construct cfg = Except.ok c) :
    c.queryOptions = [("apikey", cfg.apiKey.getD ""),
                      ("locale", if optTruthy cfg.locale then cfg.locale.getD "" else "en_US")] := by
  unfold construct at hc
  split at hc
  · exact Except.noConfusion hc
  split at hc
  · exact Except.noConfusion hc
  split at hc
  · exact Except.noConfusion hc
  injection hc with h
  subst h
  rfl

/-! ### Claim theorems -/

/-- Claim C1.  The spec claims the configured default query parameters are
immutable after construction, unchanged by the extra query parameters passed
to any earlier call.  The code passes `this.queryOptions` itself as the
target of `Object.assign` on line 38, so an earlier call mutates the stored
defaults.  Evaluation at a failing input: a client built with the default
locale `en_US` stores locale `es_MX` after one call passing that extra
parameter, and a later call with no extra parameters then merges (and sends)
`es_MX`, not the locale established at construction. -/
theorem query_mutates_default_queryOptions :
    (construct ⟨some "KEY", none, none⟩).map (fun c0 => c0.queryOptions)
      = Except.ok [("apikey", "KEY"), ("locale", "en_US")]
    ∧ (construct ⟨some "KEY", none, none⟩).map (fun c0 =>
        (query c0 "realm/status" [("locale", "es_MX")]).client.queryOptions)
      = Except.ok [("apikey", "KEY"), ("locale", "es_MX")]
    ∧ (construct ⟨some "KEY", none, none⟩).map (fun c0 =>
        objAssign (query c0 "realm/status" [("locale", "es_MX")]).client.queryOptions [])
      = Except.ok [("apikey", "KEY"), ("locale", "es_MX")] :=
  ⟨rfl, rfl, rfl⟩

/-- Claim C2, counterexample.  The claim says the injected last-modified
timestamp is merged last and overwrites a conflicting field of the step-2
body.  On line 93 the injected field is the TARGET of `Object.assign`, so
the step-2 body wins: with a step-1 timestamp of 123 and a step-2 body
binding `lastModified` to 999, the chain resolves with 999, not 123. -/
theorem auction_injected_timestamp_overwritten :
    (auction
        (Except.ok (JsVal.obj [("files", JsVal.arr
          [JsVal.obj [("url", JsVal.str "https://x/y.json"), ("lastModified", JsVal.num 123)]])]))
        200 (JsVal.obj [("lastModified", JsVal.num 999)])).result
      = Except.ok (JsVal.obj [("lastModified", JsVal.num 999)])
    ∧ JsVal.num 999 ≠ JsVal.num 123 := by
  refine ⟨rfl, fun hcontra => ?_⟩
  injection hcontra with h
  exact absurd h (by decide)

/-- Claim C2, amended.  In the chained auction fetch the injected timestamp
is the target of the final merge, so a conflicting field in the step-2 body
overwrites the step-1-derived value; the step-1 value survives only when the
second body does not bind that field. -/
theorem auction_merge_precedence (lm : JsVal) (fs : List (String × JsVal)) :
    (∀ v, lastVal fs "lastModified" = some v →
        getField (auctionMerge lm (JsVal.obj fs)) "lastModified" = v)
    ∧ (lastVal fs "lastModified" = none →
        getField (auctionMerge lm (JsVal.obj fs)) "lastModified" = lm) := by
  have hmain : lookup (objAssign [("lastModified", lm)] fs) "lastModified"
      = (lastVal fs "lastModified").elim (some lm) some := by
    rw [lookup_objAssign]
    rfl
  constructor
  · intro v hv
    simp [auctionMerge, getField, fieldsOf, hmain, hv]
  · intro hv
    simp [auctionMerge, getField, fieldsOf, hmain, hv]

/-- Witness for the amended C2 theorem at a concrete merge. -/
theorem auction_merge_precedence_witness :
    getField (auctionMerge (JsVal.num 123) (JsVal.obj [("lastModified", JsVal.num 999)]))
        "lastModified" = JsVal.num 999 :=
  (auction_merge_precedence (JsVal.num 123) [("lastModified", JsVal.num 999)]).1
    (JsVal.num 999) rfl

/-- Claim C4.  A step-1 auction body whose `files` field is missing or an
empty list fails the guard on line 80: the call rejects with the synthetic
500 "Malformed auction response" failure and no second fetch is issued. -/
theorem auction_missing_or_empty_files (body : JsVal) (status2 : Nat) (body2 : JsVal)
    (h : getField body "files" = JsVal.undefV ∨ getField body "files" = JsVal.arr []) :
    (auction (Except.ok body) status2 body2).result
        = Except.error ⟨500, JsVal.str "Malformed auction response"⟩
    ∧ (auction (Except.ok body) status2 body2).secondFetchIssued = false
    ∧ (auction (Except.ok body) status2 body2).secondFetchUrl = none := by
  have hp : auctionPrecheck body = false := by
    rcases h with h | h
    · unfold auctionPrecheck
      rw [h]
      decide
    · unfold auctionPrecheck
      rw [h]
      decide
  simp [auction, hp]

/-- Witness for C4: a step-1 body with no `files` field at all. -/
theorem auction_missing_or_empty_files_witness :
    (auction (Except.ok (JsVal.obj [])) 200 (JsVal.obj [])).result
        = Except.error ⟨500, JsVal.str "Malformed auction response"⟩
    ∧ (auction (Except.ok (JsVal.obj [])) 200 (JsVal.obj [])).secondFetchIssued = false
    ∧ (auction (Except.ok (JsVal.obj [])) 200 (JsVal.obj [])).secondFetchUrl = none :=
  auction_missing_or_empty_files (JsVal.obj []) 200 (JsVal.obj []) (Or.inl rfl)

/-- Claim C5, counterexample.  The claim says a first files element with a
`url` but no `lastModified` value triggers the synthetic 500 and step 2 is
not attempted.  The guard on line 80 never reads `lastModified`: with such a
body the second fetch IS issued, and on a 200 it resolves with the injected
`lastModified` undefined. -/
theorem auction_url_without_lastModified_proceeds :
    (auction
        (Except.ok (JsVal.obj [("files", JsVal.arr [JsVal.obj [("url", JsVal.str "https://x/y.json")]])]))
        200 (JsVal.obj [("someField", JsVal.str "v")])).secondFetchIssued = true
    ∧ (auction
        (Except.ok (JsVal.obj [("files", JsVal.arr [JsVal.obj [("url", JsVal.str "https://x/y.json")]])]))
        200 (JsVal.obj [("someField", JsVal.str "v")])).result
      = Except.ok (JsVal.obj [("lastModified", JsVal.undefV), ("someField", JsVal.str "v")]) :=
  ⟨rfl, rfl⟩

/-- Claim C5, amended.  The step-2 precondition on line 80 only requires a
non-empty `files` list whose first element has a truthy `url`; `lastModified`
is not consulted, so step 2 is attempted whether or not the first element
binds it. -/
theorem auction_precheck_ignores_lastModified (fs : List (String × JsVal)) (rest : List JsVal)
    (u : String) (hu : u ≠ "") (hurl : lookup fs "url" = some (JsVal.str u))
    (status2 : Nat) (body2 : JsVal) :
    (auction (Except.ok (JsVal.obj [("files", JsVal.arr (JsVal.obj fs :: rest))])) status2 body2).secondFetchIssued
      = true := by
  have hp : auctionPrecheck (JsVal.obj [("files", JsVal.arr (JsVal.obj fs :: rest))]) = true := by
    simp [auctionPrecheck, getField, indexAt, lookup_cons, hurl, truthy, hu]
    omega
  simp [auction, hp]

/-- Witness for the amended C5 theorem: a first files element with a url and
no lastModified still issues the second fetch. -/
theorem auction_precheck_ignores_lastModified_witness :
    (auction
        (Except.ok (JsVal.obj [("files", JsVal.arr [JsVal.obj [("url", JsVal.str "https://x/y.json")]])]))
        200 (JsVal.obj [])).secondFetchIssued = true :=
  auction_precheck_ignores_lastModified [("url", JsVal.str "https://x/y.json")] []
    "https://x/y.json" (by decide) rfl 200 (JsVal.obj [])

/-- Claim C9.  The single-string check on line 256 compares the value's
constructor with the string literal, which never matches, so a single realm
name adds no realms parameter (the call behaves exactly as with the null
default); an array argument adds one comma-joined realms parameter. -/
theorem realm_single_string_check_dead (s : String) (l : List String) :
    realmFilter (RealmsArg.strArg s) = []
    ∧ realmFilter (RealmsArg.arrArg l) = [("realms", String.intercalate "," l)]
    ∧ ∀ (c : Client) (qp : List (String × String)),
        realm c (RealmsArg.strArg s) qp = realm c RealmsArg.nullArg qp := by
  refine ⟨?_, ?_, ?_⟩
  · simp [realmFilter, ctorEqStringLiteral, ctorEqArray]
  · simp [realmFilter, ctorEqStringLiteral, ctorEqArray, realmsTruthy]
  · intro c qp
    simp [realm, realmFilter, ctorEqStringLiteral, ctorEqArray, realmsTruthy]

set_option maxRecDepth 4000 in
/-- The status regex agrees with the inclusive range [200, 299] on every
three-digit-or-shorter status (HTTP status codes are three digits). -/
theorem regexTest2xx_eq :
    ∀ s : Nat, s < 1000 → regexTest2xx (Nat.repr s) = decide (200 ≤ s ∧ s ≤ 299) := by
  decide

/-- Claim C3.  For a response status in [200, 299] the query settles by
resolving with the parsed body; for any other status it rejects with an
APIError carrying exactly that status and the reason field of the body.
Statuses are bounded by 1000, covering every HTTP status code. -/
theorem querySettle_classification (status : Nat) (h : status < 1000) (body : JsVal) :
    (200 ≤ status ∧ status ≤ 299 → querySettle status body = Except.ok body)
    ∧ (¬(200 ≤ status ∧ status ≤ 299) →
        querySettle status body = Except.error ⟨status, getField body "reason"⟩) := by
  have hr := regexTest2xx_eq status h
  constructor
  · intro hc
    have ht : regexTest2xx (Nat.repr status) = true := by
      rw [hr]
      exact decide_eq_true hc
    simp [querySettle, ht]
  · intro hc
    have hf : regexTest2xx (Nat.repr status) = false := by
      rw [hr]
      exact decide_eq_false hc
    simp [querySettle, hf]

/-- Witness for C3 at a success status and at a failure status. -/
theorem querySettle_classification_witness :
    querySettle 200 (JsVal.obj []) = Except.ok (JsVal.obj [])
    ∧ querySettle 404 (JsVal.obj [("reason", JsVal.str "Not Found")])
        = Except.error ⟨404, JsVal.str "Not Found"⟩ :=
  ⟨(querySettle_classification 200 (by decide) (JsVal.obj [])).1 (by decide),
   (querySettle_classification 404 (by decide) (JsVal.obj [("reason", JsVal.str "Not Found")])).2
     (by decide)⟩

/-- Claim C6.  For a single call on a constructed client, the configured
defaults are the base and the caller parameters are overlaid: an explicit
locale lands in the outgoing query string in place of the default, a call
with no extra parameters sends the apikey and the configured default locale,
and every caller-supplied key survives into the merged parameters with its
value. -/
theorem query_merge_overlay (cfg : ClientConfig) (c : Client) (hc : construct cfg = Except.ok c)
    (path : String) (params : List (String × String)) :
    ((query c path [("locale", "es_MX")]).url
        = c.apiHost ++ "/" ++ path ++ "?"
          ++ stringifyPairs [("apikey", cfg.apiKey.getD ""), ("locale", "es_MX")])
    ∧ ((query c path []).url
        = c.apiHost ++ "/" ++ path ++ "?"
          ++ stringifyPairs [("apikey", cfg.apiKey.getD ""),
               ("locale", if optTruthy cfg.locale then cfg.locale.getD "" else "en_US")])
    ∧ (∀ k v, lastVal params k = some v → lookup (objAssign c.queryOptions params) k = some v) := by
  have hq := construct_ok_queryOptions cfg c hc
  refine ⟨?_, ?_, ?_⟩
  · show c.apiHost ++ "/" ++ path ++ "?"
        ++ stringifyPairs (objAssign c.queryOptions [("locale", "es_MX")]) = _
    rw [hq]
    rfl
  · show c.apiHost ++ "/" ++ path ++ "?" ++ stringifyPairs (objAssign c.queryOptions []) = _
    rw [hq]
    rfl
  · intro k v hkv
    rw [lookup_objAssign, hkv]
    rfl

/-- Witness for C6 on a freshly constructed client. -/
theorem query_merge_overlay_witness :
    ((query ⟨"https://us.api.battle.net/wow", [("apikey", "KEY"), ("locale", "en_US")]⟩
        "achievement/2144" [("locale", "es_MX")]).url
      = "https://us.api.battle.net/wow" ++ "/" ++ "achievement/2144" ++ "?"
        ++ stringifyPairs [("apikey", "KEY"), ("locale", "es_MX")])
    ∧ lookup (objAssign ([("apikey", "KEY"), ("locale", "en_US")] : List (String × String))
        [("fields", "pets")]) "fields" = some "pets" :=
  ⟨(query_merge_overlay ⟨some "KEY", none, none⟩
      ⟨"https://us.api.battle.net/wow", [("apikey", "KEY"), ("locale", "en_US")]⟩ rfl
      "achievement/2144" [("fields", "pets")]).1,
   (query_merge_overlay ⟨some "KEY", none, none⟩
      ⟨"https://us.api.battle.net/wow", [("apikey", "KEY"), ("locale", "en_US")]⟩ rfl
      "achievement/2144" [("fields", "pets")]).2.2 "fields" "pets" rfl⟩

/-- Claim C7.  For a non-empty API key and a region among us and eu (or
absent, defaulting to us), construction succeeds and derives the host
`https://{region}.api.battle.net/wow`; for a missing or empty key it fails
with the construction-time error, before any request is built. -/
theorem construct_valid_config (key : String) (hk : key ≠ "") (reg : Option String)
    (hr : reg = none ∨ reg = some "us" ∨ reg = some "eu") (loc : Option String) :
    construct ⟨some key, loc, reg⟩
      = Except.ok { apiHost := "https://" ++ reg.getD "us" ++ ".api.battle.net/wow"
                    queryOptions := [("apikey", key),
                      ("locale", if optTruthy loc then loc.getD "" else "en_US")] }
    ∧ (∀ loc2 reg2, construct ⟨none, loc2, reg2⟩ = Except.error "API key not provided")
    ∧ (∀ loc2 reg2, construct ⟨some "", loc2, reg2⟩ = Except.error "API key not provided") := by
  have hkey : optTruthy (some key) = true := by simp [optTruthy, hk]
  refine ⟨?_, fun loc2 reg2 => rfl, fun loc2 reg2 => rfl⟩
  rcases hr with rfl | rfl | rfl
  · simp [construct, hkey, optTruthy, localeRegexLiteralNegated, hk]
  · simp [construct, hkey, optTruthy, regionRegexTest, localeRegexLiteralNegated, hk]
  · simp [construct, hkey, optTruthy, regionRegexTest, localeRegexLiteralNegated, hk]

/-- Witness for C7 with an eu region. -/
theorem construct_valid_config_witness :
    construct ⟨some "KEY", none, some "eu"⟩
      = Except.ok ⟨"https://eu.api.battle.net/wow", [("apikey", "KEY"), ("locale", "en_US")]⟩
    ∧ construct ⟨none, none, none⟩ = Except.error "API key not provided" :=
  ⟨(construct_valid_config "KEY" (by decide) (some "eu") (Or.inr (Or.inr rfl)) none).1,
   (construct_valid_config "KEY" (by decide) (some "eu") (Or.inr (Or.inr rfl)) none).2.1 none none⟩

/-- Claim C8.  The locale guard never evaluates the candidate locale (it
negates the regex literal itself, a tautology), so construction succeeds for
every locale string, including values outside the documented enumeration,
whenever the key and region are valid. -/
theorem construct_locale_validation_dead (key : String) (hk : key ≠ "") (loc : String)
    (reg : Option String) (hr : reg = none ∨ reg = some "us" ∨ reg = some "eu") :
    localeRegexLiteralNegated = false
    ∧ construct ⟨some key, some loc, reg⟩
        = Except.ok { apiHost := "https://" ++ reg.getD "us" ++ ".api.battle.net/wow"
                      queryOptions := [("apikey", key),
                        ("locale", if loc = "" then "en_US" else loc)] } := by
  have hkey : optTruthy (some key) = true := by simp [optTruthy, hk]
  refine ⟨rfl, ?_⟩
  rcases hr with rfl | rfl | rfl <;> by_cases hloc : loc = "" <;>
    simp [construct, hkey, optTruthy, regionRegexTest, localeRegexLiteralNegated, hloc, hk]

/-- Witness for C8 with a locale outside the documented enumeration. -/
theorem construct_locale_validation_dead_witness :
    localeRegexLiteralNegated = false
    ∧ construct ⟨some "KEY", some "xx_invalid", none⟩
        = Except.ok ⟨"https://us.api.battle.net/wow", [("apikey", "KEY"), ("locale", "xx_invalid")]⟩ :=
  construct_locale_validation_dead "KEY" (by decide) "xx_invalid" none (Or.inl rfl)

/-- A resource token outside the switch cases falls through to the empty
sub-path. -/
theorem dataSubPath_unknown (r : String)
    (h : r ∉ (["talents", "battlegroups", "races", "classes", "achievements", "rewards",
               "perks", "guildAchievements", "itemClasses", "petTypes"] : List String)) :
    dataSubPath r = "" := by
  simp only [List.mem_cons, List.not_mem_nil, or_false, not_or] at h
  unfold dataSubPath
  split <;> simp_all

/-- Claim C10.  A resource token outside the fixed set does not fail: the
switch falls through to the empty sub-path and the request goes to the bare
path `data/` with the merged query parameters. -/
theorem data_unknown_resource (r : String)
    (h : r ∉ (["talents", "battlegroups", "races", "classes", "achievements", "rewards",
               "perks", "guildAchievements", "itemClasses", "petTypes"] : List String))
    (c : Client) (qp : List (String × String)) :
    dataSubPath r = ""
    ∧ (data c r qp).url
        = c.apiHost ++ "/" ++ "data/" ++ "?" ++ stringifyPairs (objAssign c.queryOptions qp) := by
  have hs := dataSubPath_unknown r h
  refine ⟨hs, ?_⟩
  show c.apiHost ++ "/" ++ ("data/" ++ dataSubPath r) ++ "?"
      ++ stringifyPairs (objAssign c.queryOptions qp) = _
  rw [hs]
  rfl

/-- Witness for C10 at the unknown resource token pets. -/
theorem data_unknown_resource_witness :
    dataSubPath "pets" = ""
    ∧ (data ⟨"https://us.api.battle.net/wow", [("apikey", "KEY"), ("locale", "en_US")]⟩
          "pets" []).url
      = "https://us.api.battle.net/wow" ++ "/" ++ "data/" ++ "?"
        ++ stringifyPairs (objAssign [("apikey", "KEY"), ("locale", "en_US")] []) :=
  data_unknown_resource "pets" (by decide)
    ⟨"https://us.api.battle.net/wow", [("apikey", "KEY"), ("locale", "en_US")]⟩ []

end WowCommunity
